import Mathlib

/-
Verification of the obpcut slicing/hatching core against its
natural-language specification.

Shallow embedding conventions:
* Python floats are modelled as exact rationals (ℚ); the float operations
  used by the code (comparison, +, -, *, /, abs, %) are exact on ℚ.
* Trigonometric functions (math.cos/math.sin of an angle given in degrees)
  are irrational-valued float computations; they are passed as explicit
  function parameters (cosd, sind : ℚ → ℚ) so that every embedded
  definition stays executable.  Theorems quantify over them.
* Calls into the external shapely geometry library are modelled as
  explicit oracle parameters; the code under verification is the
  pre/post-processing around those calls, which is what the claims are
  about.
* A Python function that can raise is modelled with Option where the
  callers catch the exception.
-/

set_option maxRecDepth 4000

namespace Obpcut

/-- A 2D point (x, y) with exact rational coordinates. -/
abbrev Point2 := ℚ × ℚ

/-- A 3D point or vector (x, y, z). -/
abbrev Vec3 := ℚ × ℚ × ℚ

/-- A slice segment in the tuple format (x1, z1, x2, z2) used by
`SlicingWorker` and `hatching_integration`. -/
abbrev Seg4 := ℚ × ℚ × ℚ × ℚ

/-- Embedding of `hatching.base.HatchLine` (src/hatching/base.py).
The source field `end` is a Lean keyword and is named `endp` here;
`speed` and `power` are `Optional[float]` in the source. -/
structure HatchLine where
  start : Point2
  endp : Point2
  speed : Option ℚ
  power : Option ℚ
  layer_index : ℤ
  is_contour : Bool
deriving DecidableEq, Repr

/-- Embedding of `hatching.base.HatchingParameters` (src/hatching/base.py),
restricted to the fields the embedded functions read. -/
structure HatchingParameters where
  hatch_spacing : ℚ
  hatch_angle : ℚ
  layer_rotation : ℚ
  border_offset : ℚ
  enable_contours : Bool
  contour_count : ℤ
  scan_speed : ℚ
  power_level : ℚ
  infill_density : ℚ
  optimize_path : Bool
  bidirectional : Bool
deriving DecidableEq, Repr

/-- Python's `abs` on floats, written so that concrete rational inputs
evaluate; equal to Mathlib's `|·|` (see `pyabs_eq_abs`). -/
def pyabs (q : ℚ) : ℚ := if q < 0 then -q else q

theorem pyabs_eq_abs (q : ℚ) : pyabs q = |q| := by
  unfold pyabs
  rcases lt_or_le q 0 with h | h
  · rw [if_pos h, abs_of_neg h]
  · rw [if_neg (not_lt.mpr h), abs_of_nonneg h]

/-- Python float modulo for a positive modulus: `x % m = x - m * floor (x / m)`. -/
def pymod (x m : ℚ) : ℚ := x - m * ⌊x / m⌋

/-- Embedding of `HatchingPlugin.get_effective_angle`
(src/hatching/base.py lines 228-241): `(base_angle + layer_index * rotation) % 180`. -/
def get_effective_angle (base_angle : ℚ) (layer_index : ℤ) (rotation : ℚ) : ℚ :=
  pymod (base_angle + layer_index * rotation) 180

theorem pymod_eq_fract (x m : ℚ) (hm : m ≠ 0) :
    pymod x m = m * Int.fract (x / m) := by
  unfold pymod Int.fract
  field_simp

theorem pymod_nonneg (x m : ℚ) (hm : 0 < m) : 0 ≤ pymod x m := by
  rw [pymod_eq_fract x m hm.ne.symm]
  exact mul_nonneg hm.le (Int.fract_nonneg _)

theorem pymod_lt (x m : ℚ) (hm : 0 < m) : pymod x m < m := by
  rw [pymod_eq_fract x m hm.ne.symm]
  calc m * Int.fract (x / m) < m * 1 := by
        exact mul_lt_mul_of_pos_left (Int.fract_lt_one _) hm
    _ = m := mul_one m

theorem pymod_add_int_mul (x m : ℚ) (k : ℤ) (hm : m ≠ 0) :
    pymod (x + m * k) m = pymod x m := by
  rw [pymod_eq_fract _ _ hm, pymod_eq_fract _ _ hm]
  have h : (x + m * k) / m = x / m + k := by
    field_simp
    ring
  rw [h, Int.fract_add_int]

/-- Embedding of `SlicingWorker._outlines_are_equal` (src/workers.py lines
413-429): pairwise closeness of the two zipped segment lists.  The source
returns False as soon as one of the four coordinate differences exceeds the
tolerance, so a zipped pair passes iff all four differences are within it. -/
def segPairClose (s1 s2 : Seg4) (tolerance : ℚ) : Bool :=
  pyabs (s1.1 - s2.1) ≤ tolerance && pyabs (s1.2.1 - s2.2.1) ≤ tolerance &&
  pyabs (s1.2.2.1 - s2.2.2.1) ≤ tolerance && pyabs (s1.2.2.2 - s2.2.2.2) ≤ tolerance

/-- The early-returning loop `for s1, s2 in zip(segments1, segments2)` of
`SlicingWorker._outlines_are_equal`; `zip` truncates at the shorter list. -/
def segsAllClose : List Seg4 → List Seg4 → ℚ → Bool
  | [], _, _ => true
  | _, [], _ => true
  | s1 :: r1, s2 :: r2, tolerance =>
    segPairClose s1 s2 tolerance && segsAllClose r1 r2 tolerance

/-- Embedding of `SlicingWorker._outlines_are_equal` (src/workers.py lines
413-429); the source's default tolerance is 1e-6.  Note: the source compares
the two lists position by position (its own comment says "Simple comparison
(can be improved with better matching)"); it performs no canonicalization
and no sorting. -/
def outlines_are_equal (segments1 segments2 : List Seg4)
    (tolerance : ℚ) : Bool :=
  if segments1.length ≠ segments2.length then false
  else if segments1.length = 0 then true
  else segsAllClose segments1 segments2 tolerance

/-- Embedding of `SlicingWorker._intersect_triangle_plane` (src/workers.py
lines 334-373).  A vertex is (x, y, z); the plane is horizontal at height
`plane_y` on the y axis.  Each of the three edges contributes an
interpolated (x, z) crossing point when the edge's y range contains
`plane_y` and the y extent exceeds the 1e-10 division guard; exactly two
crossing points yield one segment, anything else yields none. -/
def intersect_triangle_plane (v0 v1 v2 : Vec3) (plane_y : ℚ) : Option Seg4 :=
  let y0 := v0.2.1; let y1 := v1.2.1; let y2 := v2.2.1
  let eps : ℚ := 1/10000000000
  let e01 : List Point2 :=
    if ((y0 ≤ plane_y ∧ plane_y ≤ y1) ∨ (y1 ≤ plane_y ∧ plane_y ≤ y0)) ∧
       pyabs (y1 - y0) > eps then
      let t := (plane_y - y0) / (y1 - y0)
      [(v0.1 + t * (v1.1 - v0.1), v0.2.2 + t * (v1.2.2 - v0.2.2))]
    else []
  let e12 : List Point2 :=
    if ((y1 ≤ plane_y ∧ plane_y ≤ y2) ∨ (y2 ≤ plane_y ∧ plane_y ≤ y1)) ∧
       pyabs (y2 - y1) > eps then
      let t := (plane_y - y1) / (y2 - y1)
      [(v1.1 + t * (v2.1 - v1.1), v1.2.2 + t * (v2.2.2 - v1.2.2))]
    else []
  let e20 : List Point2 :=
    if ((y2 ≤ plane_y ∧ plane_y ≤ y0) ∨ (y0 ≤ plane_y ∧ plane_y ≤ y2)) ∧
       pyabs (y0 - y2) > eps then
      let t := (plane_y - y2) / (y0 - y2)
      [(v2.1 + t * (v0.1 - v2.1), v2.2.2 + t * (v0.2.2 - v2.2.2))]
    else []
  match e01 ++ e12 ++ e20 with
  | [p0, p1] => some (p0.1, p0.2, p1.1, p1.2)
  | _ => none

/-- C7: `get_effective_angle(a, k, r)` equals `(a + k*r) mod 180` (it differs
from `a + k*r` by an integer multiple of 180 and lies in `[0, 180)`), reduces
to `a mod 180` at layer 0, and is periodic modulo 180 in the base angle and
in the per-layer rotation. -/
theorem get_effective_angle_spec (a : ℚ) (k : ℤ) (r : ℚ) :
    get_effective_angle a k r = pymod (a + k * r) 180 ∧
    (∃ n : ℤ, a + k * r = get_effective_angle a k r + 180 * n) ∧
    0 ≤ get_effective_angle a k r ∧ get_effective_angle a k r < 180 ∧
    get_effective_angle a 0 r = pymod a 180 ∧
    get_effective_angle (a + 180) k r = get_effective_angle a k r ∧
    get_effective_angle a k (r + 180) = get_effective_angle a k r := by
  refine ⟨rfl, ⟨⌊(a + k * r) / 180⌋, ?_⟩, pymod_nonneg _ _ (by norm_num),
    pymod_lt _ _ (by norm_num), by simp [get_effective_angle],
    ?_, ?_⟩
  · unfold get_effective_angle pymod
    ring
  · have h := pymod_add_int_mul (a + k * r) 180 1 (by norm_num)
    unfold get_effective_angle
    rw [← h]
    norm_num
    ring_nf
  · have h := pymod_add_int_mul (a + k * r) 180 k (by norm_num)
    unfold get_effective_angle
    rw [← h]
    ring_nf

theorem segsAllClose_refl (segs : List Seg4) (tol : ℚ) (h : 0 ≤ tol) :
    segsAllClose segs segs tol = true := by
  induction segs with
  | nil => rfl
  | cons s rest ih =>
    simp only [segsAllClose, segPairClose, sub_self, pyabs, ih,
      Bool.and_eq_true, decide_eq_true_eq]
    norm_num
    exact h

theorem segsAllClose_symm (s1 s2 : List Seg4) (tol : ℚ) :
    segsAllClose s1 s2 tol = segsAllClose s2 s1 tol := by
  induction s1 generalizing s2 with
  | nil => cases s2 <;> rfl
  | cons a r1 ih =>
    cases s2 with
    | nil => rfl
    | cons b r2 =>
      simp only [segsAllClose, segPairClose, ih r2, pyabs_eq_abs, abs_sub_comm]

/-- C5 (amended): the outline-equality test of the section grouper is
reflexive (for a nonnegative tolerance, in particular the default 1e-6) and
symmetric; but it compares the two segment lists position by position with
no canonicalization and no sorting, so permuting one list's segments or
swapping a segment's endpoints can change the result (see the
counterexample theorem). -/
theorem outlines_are_equal_refl_and_symm :
    (∀ (segs : List Seg4) (tol : ℚ), 0 ≤ tol →
      outlines_are_equal segs segs tol = true) ∧
    (∀ (s1 s2 : List Seg4) (tol : ℚ),
      outlines_are_equal s1 s2 tol = outlines_are_equal s2 s1 tol) := by
  constructor
  · intro segs tol h
    unfold outlines_are_equal
    simp [segsAllClose_refl segs tol h]
  · intro s1 s2 tol
    unfold outlines_are_equal
    rcases eq_or_ne s1.length s2.length with heq | hne
    · simp [heq, segsAllClose_symm]
    · simp [hne, Ne.symm hne]

/-- C5 witness: reflexivity at a concrete outline and the default 1e-6
tolerance. -/
theorem outlines_are_equal_refl_and_symm_witness :
    outlines_are_equal [(1, 2, 3, 4)] [(1, 2, 3, 4)] (1/1000000) = true :=
  outlines_are_equal_refl_and_symm.1 [(1, 2, 3, 4)] (1/1000000) (by norm_num)

/-- C5 counterexample: the test is not invariant under permuting one list's
segments nor under swapping a segment's endpoints.  The outline holding
segments s = (0,0)-(1,0) and t = (5,5)-(6,5) is equal to itself, but
comparing it against its own permutation [t, s] yields false, and comparing
[s] against [s with endpoints swapped] also yields false. -/
theorem outlines_are_equal_not_invariant :
    outlines_are_equal [(0, 0, 1, 0), (5, 5, 6, 5)]
      [(0, 0, 1, 0), (5, 5, 6, 5)] (1/1000000) = true ∧
    outlines_are_equal [(0, 0, 1, 0), (5, 5, 6, 5)]
      [(5, 5, 6, 5), (0, 0, 1, 0)] (1/1000000) = false ∧
    outlines_are_equal [(0, 0, 1, 0)] [(1, 0, 0, 0)] (1/1000000) = false := by
  refine ⟨?_, ?_, ?_⟩ <;>
    norm_num [outlines_are_equal, segsAllClose, segPairClose, pyabs]

/-- C6 counterexample: a triangle touching the slicing plane at exactly one
vertex, with the other two vertices strictly above the plane, contributes a
degenerate zero-length Segment, not nothing: the spec says such a triangle
"contributes no Segment", but the vertex (0,5,0) of this triangle is hit by
two edge tests (t = 0 on edge v0-v1 and t = 1 on edge v2-v0) and the routine
returns the segment (0,0)-(0,0). -/
theorem intersect_triangle_plane_vertex_touch_counterexample :
    intersect_triangle_plane (0, 5, 0) (1, 6, 1) (2, 7, 2) 5 =
      some (0, 0, 0, 0) := by
  norm_num [intersect_triangle_plane, pyabs]

/-- C6 (amended): the plane-intersection routine produces at most one Segment
per triangle, and a triangle lying exactly in the plane contributes no
Segment; but a triangle touching the plane at only one vertex (the other two
vertices strictly off the plane, beyond the 1e-10 guard, on the same side)
contributes a degenerate zero-length Segment at that vertex rather than
nothing. -/
theorem intersect_triangle_plane_amended :
    (∀ (v0 v1 v2 : Vec3) (p : ℚ),
      (intersect_triangle_plane v0 v1 v2 p).toList.length ≤ 1) ∧
    (∀ (v0 v1 v2 : Vec3) (p : ℚ),
      v0.2.1 = p → v1.2.1 = p → v2.2.1 = p →
      intersect_triangle_plane v0 v1 v2 p = none) ∧
    (∀ (v0 v1 v2 : Vec3) (p : ℚ),
      v0.2.1 = p → p + 1/10000000000 < v1.2.1 → p + 1/10000000000 < v2.2.1 →
      intersect_triangle_plane v0 v1 v2 p =
        some (v0.1, v0.2.2, v0.1, v0.2.2)) := by
  refine ⟨?_, ?_, ?_⟩
  · intro v0 v1 v2 p
    cases intersect_triangle_plane v0 v1 v2 p <;> simp
  · intro v0 v1 v2 p h0 h1 h2
    unfold intersect_triangle_plane
    rw [h0, h1, h2]
    norm_num [pyabs]
  · intro v0 v1 v2 p h0 h1 h2
    have e1 : p < v1.2.1 := lt_trans (by linarith) h1
    have e2 : p < v2.2.1 := lt_trans (by linarith) h2
    unfold intersect_triangle_plane
    rw [h0]
    dsimp only
    rw [if_pos, if_neg, if_pos]
    · have t01 : (p - p) / (v1.2.1 - p) = 0 := by
        rw [sub_self, zero_div]
      have t20 : (p - v2.2.1) / (p - v2.2.1) = 1 :=
        div_self (by linarith)
      rw [t01, t20]
      ring_nf
      rfl
    · constructor
      · right
        exact ⟨le_refl p, e2.le⟩
      · have : pyabs (p - v2.2.1) = v2.2.1 - p := by
          unfold pyabs
          rw [if_pos (by linarith)]
          ring
        rw [this]
        linarith
    · intro hcontra
      rcases hcontra.1 with ⟨hA, _⟩ | ⟨hB, _⟩
      · linarith
      · linarith
    · constructor
      · left
        exact ⟨le_refl p, e1.le⟩
      · have : pyabs (v1.2.1 - p) = v1.2.1 - p := by
          unfold pyabs
          rw [if_neg (by linarith)]
        rw [this]
        linarith

/-- C6 witness: the amended theorem applied at a concrete one-vertex-touch
triangle. -/
theorem intersect_triangle_plane_amended_witness :
    intersect_triangle_plane (3, 2, 4) (1, 3, 1) (2, 9, 2) 2 =
      some (3, 4, 3, 4) :=
  intersect_triangle_plane_amended.2.2 (3, 2, 4) (1, 3, 1) (2, 9, 2) 2
    rfl (by norm_num) (by norm_num)

/-- Squared Euclidean distance, as in `np.sum((pts - current_pos) ** 2)`. -/
def sqDist (a b : Point2) : ℚ := (a.1 - b.1) ^ 2 + (a.2 - b.2) ^ 2

/-- Index and value of the first minimum of the nonempty list `v :: vs`, as
returned by `np.argmin` over an array of finite values (first occurrence on
ties). -/
def argminIdx (v : ℚ) : List ℚ → Nat × ℚ
  | [] => (0, v)
  | w :: ws =>
    let p := argminIdx w ws
    if v ≤ p.2 then (0, v) else (p.1 + 1, p.2)

/-- The endpoint flip performed by `optimize_scan_path` when a line's `end`
is nearer than its `start`: a new `HatchLine` with start and end swapped and
all other fields copied. -/
def flipHatchLine (l : HatchLine) : HatchLine :=
  ⟨l.endp, l.start, l.speed, l.power, l.layer_index, l.is_contour⟩

/-- Default value used only to totalize list indexing that the source
performs with an index known to be in range. -/
def dummyHatchLine : HatchLine := ⟨(0, 0), (0, 0), none, none, 0, false⟩

/-- One iteration of the greedy loop of `HatchingPlugin.optimize_scan_path`
(src/hatching/base.py lines 165-220), iterated `fuel` times (the source runs
the loop exactly `n = len(hatch_lines)` times).  The source keeps all lines
in fixed arrays and masks visited entries with `np.inf` before taking
`np.argmin`; since every true squared distance is finite, the first minimum
over the masked arrays is the first minimum over the sublist of unvisited
lines, and erasing placed entries preserves relative order, so the state is
modelled as the list of still-unvisited lines.  Each iteration places the
line whose nearer endpoint (start preferred on exact value ties, as in
`ds[best_start_idx] <= de[best_end_idx]`) is closest to the current pen
position, flipped when its end was nearer, and the pen advances to the
placed line's end. -/
def optimize_scan_path_go : Nat → Point2 → List HatchLine → List HatchLine
  | 0, _, _ => []
  | _ + 1, _, [] => []
  | fuel + 1, pos, l :: ls =>
    let s := argminIdx (sqDist l.start pos) (ls.map fun x => sqDist x.start pos)
    let e := argminIdx (sqDist l.endp pos) (ls.map fun x => sqDist x.endp pos)
    let pick : Nat × Bool := if s.2 ≤ e.2 then (s.1, false) else (e.1, true)
    let line := (l :: ls).getD pick.1 dummyHatchLine
    let placed := if pick.2 then flipHatchLine line else line
    placed :: optimize_scan_path_go fuel placed.endp ((l :: ls).eraseIdx pick.1)

/-- Embedding of `HatchingPlugin.optimize_scan_path` (src/hatching/base.py
lines 165-220): greedy nearest-neighbor reordering over `n` iterations,
starting from the first line's start point; the empty input returns `[]`. -/
def optimize_scan_path (hatch_lines : List HatchLine) : List HatchLine :=
  match hatch_lines with
  | [] => []
  | l :: _ => optimize_scan_path_go hatch_lines.length l.start hatch_lines

/-- The data of a hatch line that C3 requires the optimizer to preserve: the
unordered endpoint pair (a two-element multiset) together with speed, power,
layer index and the contour flag. -/
def canonLine (l : HatchLine) :
    Multiset Point2 × Option ℚ × Option ℚ × ℤ × Bool :=
  ({l.start, l.endp}, l.speed, l.power, l.layer_index, l.is_contour)

theorem canonLine_flip (l : HatchLine) :
    canonLine (flipHatchLine l) = canonLine l := by
  unfold canonLine flipHatchLine
  simp only [Prod.mk.injEq, and_true, true_and]
  exact Multiset.cons_swap _ _ _

theorem argminIdx_fst_lt (v : ℚ) :
    ∀ (vs : List ℚ), (argminIdx v vs).1 < vs.length + 1 := by
  intro vs
  induction vs generalizing v with
  | nil => simp [argminIdx]
  | cons w ws ih =>
    simp only [argminIdx, List.length_cons]
    by_cases h : v ≤ (argminIdx w ws).2
    · simp [h]
    · have := ih w
      simp only [if_neg h]
      omega

theorem getD_cons_eraseIdx_perm {α : Type} (d : α) :
    ∀ (l : List α) (i : Nat), i < l.length →
      List.Perm (l.getD i d :: l.eraseIdx i) l := by
  intro l
  induction l with
  | nil => intro i h; simp at h
  | cons a rest ih =>
    intro i h
    cases i with
    | zero => simp [List.getD]
    | succ j =>
      have hj : j < rest.length := by
        simp at h
        omega
      have hstep := ih j hj
      simp only [List.getD_cons_succ, List.eraseIdx_cons_succ]
      exact List.Perm.trans (List.Perm.swap a (rest.getD j d) (rest.eraseIdx j))
        (List.Perm.cons a hstep)

theorem placed_cons_perm (r : List HatchLine) (i : Nat) (hlt : i < r.length)
    (placed : HatchLine) (tail : List HatchLine)
    (hcanon : canonLine placed = canonLine (r.getD i dummyHatchLine))
    (htail : List.Perm (tail.map canonLine) ((r.eraseIdx i).map canonLine)) :
    List.Perm ((placed :: tail).map canonLine) (r.map canonLine) := by
  have h1 : List.Perm ((placed :: tail).map canonLine)
      (canonLine placed :: (r.eraseIdx i).map canonLine) := by
    simp only [List.map_cons]
    exact List.Perm.cons _ htail
  have h2 : canonLine placed :: (r.eraseIdx i).map canonLine
      = (r.getD i dummyHatchLine :: r.eraseIdx i).map canonLine := by
    simp only [List.map_cons, hcanon]
  have h3 : List.Perm ((r.getD i dummyHatchLine :: r.eraseIdx i).map canonLine)
      (r.map canonLine) :=
    List.Perm.map canonLine (getD_cons_eraseIdx_perm dummyHatchLine r i hlt)
  exact List.Perm.trans h1 (h2 ▸ h3)

theorem optimize_scan_path_go_perm :
    ∀ (fuel : Nat) (pos : Point2) (remaining : List HatchLine),
      remaining.length = fuel →
      List.Perm ((optimize_scan_path_go fuel pos remaining).map canonLine)
        (remaining.map canonLine) := by
  intro fuel
  induction fuel with
  | zero =>
    intro pos remaining h
    rw [List.length_eq_zero] at h
    subst h
    simp [optimize_scan_path_go]
  | succ n ih =>
    intro pos remaining h
    cases remaining with
    | nil => simp at h
    | cons l ls =>
      have hlen : ls.length = n := by
        simp only [List.length_cons] at h
        omega
      simp only [optimize_scan_path_go]
      by_cases hc : (argminIdx (sqDist l.start pos)
            (ls.map fun x => sqDist x.start pos)).2 ≤
          (argminIdx (sqDist l.endp pos) (ls.map fun x => sqDist x.endp pos)).2
      · simp only [if_pos hc, if_neg Bool.false_ne_true]
        have hlt : (argminIdx (sqDist l.start pos)
            (ls.map fun x => sqDist x.start pos)).1 < (l :: ls).length := by
          have := argminIdx_fst_lt (sqDist l.start pos)
            (ls.map fun x => sqDist x.start pos)
          simpa using this
        refine placed_cons_perm (l :: ls) _ hlt _ _ rfl (ih _ _ ?_)
        have := List.length_eraseIdx_add_one hlt
        simp only [List.length_cons] at this ⊢
        omega
      · simp only [if_neg hc, if_pos rfl]
        have hlt : (argminIdx (sqDist l.endp pos)
            (ls.map fun x => sqDist x.endp pos)).1 < (l :: ls).length := by
          have := argminIdx_fst_lt (sqDist l.endp pos)
            (ls.map fun x => sqDist x.endp pos)
          simpa using this
        refine placed_cons_perm (l :: ls) _ hlt _ _ (canonLine_flip _) (ih _ _ ?_)
        have := List.length_eraseIdx_add_one hlt
        simp only [List.length_cons] at this ⊢
        omega

/-- C3: `optimize_scan_path` returns a list of the same length whose multiset
of unordered endpoint pairs, each carrying its line's speed, power, layer
index and contour flag unchanged, equals that of the input; only the order of
lines and the start/end orientation of individual lines may differ (stated
for every list, hence in particular for every non-empty one). -/
theorem optimize_scan_path_preserves_lines (hatch_lines : List HatchLine) :
    (optimize_scan_path hatch_lines).length = hatch_lines.length ∧
    List.Perm ((optimize_scan_path hatch_lines).map canonLine)
      (hatch_lines.map canonLine) := by
  have hperm : List.Perm ((optimize_scan_path hatch_lines).map canonLine)
      (hatch_lines.map canonLine) := by
    cases hatch_lines with
    | nil => simp [optimize_scan_path]
    | cons l ls =>
      unfold optimize_scan_path
      exact optimize_scan_path_go_perm (l :: ls).length l.start (l :: ls) rfl
  refine ⟨?_, hperm⟩
  have hlen := hperm.length_eq
  simpa using hlen

/-- Embedding of `HatchingPlugin.generate_contours` (src/hatching/base.py
lines 243-283): nothing when contours are disabled or `contour_count == 0`;
otherwise, for each input contour with at least 2 points, one contour
`HatchLine` per index `i` from `contour[i]` to `contour[(i+1) % len]`
(the modulus closes the loop from the last point back to the first). -/
def generate_contours (contours : List (List Point2))
    (parameters : HatchingParameters) (layer_index : ℤ) : List HatchLine :=
  if ¬ parameters.enable_contours ∨ parameters.contour_count = 0 then []
  else
    contours.flatMap (fun contour =>
      if contour.length < 2 then []
      else (List.range contour.length).map (fun i =>
        ⟨contour.getD i (0, 0), contour.getD ((i + 1) % contour.length) (0, 0),
         some parameters.scan_speed, some parameters.power_level,
         layer_index, true⟩))

/-- C10: `generate_contours` emits nothing when contours are disabled, when
`contour_count = 0`, or for contours with fewer than 2 points; a degenerate
2-point contour produces exactly two coincident opposite-direction contour
lines; and in general a contour with n >= 2 points yields n lines whose last
line closes the loop from the contour's last point back to its first. -/
theorem generate_contours_spec :
    (∀ (cs : List (List Point2)) (p : HatchingParameters) (k : ℤ),
      p.enable_contours = false ∨ p.contour_count = 0 →
      generate_contours cs p k = []) ∧
    (∀ (cs : List (List Point2)) (p : HatchingParameters) (k : ℤ),
      (∀ c ∈ cs, c.length < 2) → generate_contours cs p k = []) ∧
    (∀ (a b : Point2) (p : HatchingParameters) (k : ℤ),
      p.enable_contours = true → p.contour_count ≠ 0 →
      generate_contours [[a, b]] p k =
        [⟨a, b, some p.scan_speed, some p.power_level, k, true⟩,
         ⟨b, a, some p.scan_speed, some p.power_level, k, true⟩]) ∧
    (∀ (c : List Point2) (p : HatchingParameters) (k : ℤ),
      p.enable_contours = true → p.contour_count ≠ 0 → 2 ≤ c.length →
      (generate_contours [c] p k).length = c.length ∧
      (generate_contours [c] p k).getD (c.length - 1) dummyHatchLine =
        ⟨c.getD (c.length - 1) (0, 0), c.getD 0 (0, 0),
         some p.scan_speed, some p.power_level, k, true⟩) := by
  refine ⟨?_, ?_, ?_, ?_⟩
  · intro cs p k h
    unfold generate_contours
    rcases h with h | h <;> simp [h]
  · intro cs p k h
    unfold generate_contours
    by_cases hgate : ¬ (p.enable_contours = true) ∨ p.contour_count = 0
    · rw [if_pos hgate]
    · rw [if_neg hgate]
      rw [List.flatMap_eq_nil_iff]
      intro c hc
      simp [h c hc]
  · intro a b p k he hc
    unfold generate_contours
    rw [if_neg (by simp [he, hc])]
    simp [List.range_succ]
  · intro c p k he hc h2
    unfold generate_contours
    rw [if_neg (by simp [he, hc])]
    have hn2 : ¬ c.length < 2 := by omega
    simp only [List.flatMap_cons, List.flatMap_nil, List.append_nil, if_neg hn2]
    have hlen : ((List.range c.length).map (fun i =>
        (⟨c.getD i (0, 0), c.getD ((i + 1) % c.length) (0, 0),
          some p.scan_speed, some p.power_level, k, true⟩ : HatchLine))).length
        = c.length := by
      simp
    refine ⟨hlen, ?_⟩
    have hidx : c.length - 1 < ((List.range c.length).map (fun i =>
        (⟨c.getD i (0, 0), c.getD ((i + 1) % c.length) (0, 0),
          some p.scan_speed, some p.power_level, k, true⟩ : HatchLine))).length := by
      rw [hlen]
      omega
    rw [List.getD_eq_getElem _ _ hidx]
    rw [List.getElem_map]
    rw [List.getElem_range]
    have hwrap : (c.length - 1 + 1) % c.length = 0 := by
      have h1 : c.length - 1 + 1 = c.length := by omega
      rw [h1, Nat.mod_self]
    rw [hwrap]

/-- C10 witness: a concrete 2-point contour with contours enabled produces
exactly the two coincident opposite-direction lines. -/
theorem generate_contours_spec_witness :
    generate_contours [[(0, 0), (1, 1)]]
      ⟨1/10, 0, 67, 0, true, 1, 1000, 1, 1, true, true⟩ 0 =
      [⟨(0, 0), (1, 1), some 1000, some 1, 0, true⟩,
       ⟨(1, 1), (0, 0), some 1000, some 1, 0, true⟩] :=
  generate_contours_spec.2.2.1 (0, 0) (1, 1)
    ⟨1/10, 0, 67, 0, true, 1, 1000, 1, 1, true, true⟩ 0 rfl (by norm_num)

/-- Embedding of `HatchingPlugin.validate_parameters` (src/hatching/base.py
lines 145-163): spacing must be positive, contour count nonnegative, power
and infill density within [0, 1]. -/
def validate_parameters (parameters : HatchingParameters) : Bool :=
  if parameters.hatch_spacing ≤ 0 then false
  else if parameters.contour_count < 0 then false
  else if ¬ (0 ≤ parameters.power_level ∧ parameters.power_level ≤ 1) then false
  else if ¬ (0 ≤ parameters.infill_density ∧ parameters.infill_density ≤ 1) then false
  else true

/-- Oracle for the shapely-backed geometry steps used by
`LineHatchingPlugin.generate_hatching` (src/hatching/plugins.py): polygon
construction from contours (`create_polygon_from_contours`, None on
failure), the emptiness test, the inward border offset (`offset_polygon`,
None on failure), and the scan-line generation `_generate_parallel_lines`
(polygon, spacing, effective angle, parameters, layer index).  The claims
settled here hold for every oracle. -/
structure GeomOps (Poly : Type) where
  createPolygonFromContours : List (List Point2) → Option Poly
  isEmptyPoly : Poly → Bool
  offsetPolygonOp : Poly → ℚ → Option Poly
  generateParallelLines : Poly → ℚ → ℚ → HatchingParameters → ℤ → List HatchLine

/-- Embedding of `LineHatchingPlugin.generate_hatching`
(src/hatching/plugins.py lines 33-99): reject an empty contour list or a
sub-3-point outer boundary; reject invalid parameters; build the polygon
(empty/None rejects); apply the border offset when positive (a vanished or
failed offset rejects); emit contour lines when enabled; generate infill at
the effective angle; optionally optimize the concatenated path. -/
def generate_hatching {Poly : Type} (ops : GeomOps Poly)
    (contours : List (List Point2)) (parameters : HatchingParameters)
    (layer_index : ℤ) : List HatchLine :=
  match contours with
  | [] => []
  | c0 :: _ =>
    if c0.length < 3 then []
    else if ¬ validate_parameters parameters then []
    else
      match ops.createPolygonFromContours contours with
      | none => []
      | some polygon0 =>
        if ops.isEmptyPoly polygon0 then []
        else
          let polyAfterOffset : Option Poly :=
            if parameters.border_offset > 0 then
              match ops.offsetPolygonOp polygon0 parameters.border_offset with
              | some op => if ¬ ops.isEmptyPoly op then some op else none
              | none => none
            else some polygon0
          match polyAfterOffset with
          | none => []
          | some polygon =>
            let contour_lines :=
              if parameters.enable_contours then
                generate_contours contours parameters layer_index
              else []
            let effective_angle := get_effective_angle parameters.hatch_angle
              layer_index parameters.layer_rotation
            let infill_lines := ops.generateParallelLines polygon
              parameters.hatch_spacing effective_angle parameters layer_index
            let hatch_lines := contour_lines ++ infill_lines
            if parameters.optimize_path ∧ hatch_lines.length > 1 then
              optimize_scan_path hatch_lines
            else hatch_lines

/-- C2: whenever the parameters are invalid (spacing <= 0, contour_count < 0,
power outside [0,1] or infill density outside [0,1]),
`LineHatchingPlugin.generate_hatching` returns the empty list for every
contour list, layer index and geometry oracle; no geometry call is reached,
so no exception can arise. -/
theorem generate_hatching_invalid_params_empty {Poly : Type}
    (ops : GeomOps Poly) (contours : List (List Point2))
    (parameters : HatchingParameters) (layer_index : ℤ)
    (h : parameters.hatch_spacing ≤ 0 ∨ parameters.contour_count < 0 ∨
      ¬ (0 ≤ parameters.power_level ∧ parameters.power_level ≤ 1) ∨
      ¬ (0 ≤ parameters.infill_density ∧ parameters.infill_density ≤ 1)) :
    generate_hatching ops contours parameters layer_index = [] := by
  have hval : validate_parameters parameters = false := by
    unfold validate_parameters
    split_ifs with h1 h2 h3 h4 <;> try rfl
    rcases h with h | h | h | h <;> tauto
  cases contours with
  | nil => rfl
  | cons c0 rest =>
    show generate_hatching ops (c0 :: rest) parameters layer_index = []
    rw [generate_hatching]
    by_cases hlen : c0.length < 3
    · rw [if_pos hlen]
    · rw [if_neg hlen, if_pos]
      simp [hval]

/-- C2 witness: negative spacing at a concrete triangle contour and a trivial
oracle yields the empty list. -/
theorem generate_hatching_invalid_params_empty_witness :
    generate_hatching
      (⟨fun _ => some (), fun _ => false, fun _ _ => some (),
        fun _ _ _ _ _ => []⟩ : GeomOps Unit)
      [[(0, 0), (1, 0), (0, 1)]]
      ⟨-1, 0, 67, 0, true, 1, 1000, 1, 1, true, true⟩ 0 = [] :=
  generate_hatching_invalid_params_empty _ _ _ 0 (Or.inl (by norm_num))

/-- Length of a `HatchLine` (`HatchLine.length`, src/hatching/base.py lines
44-48): the Euclidean norm of end minus start.  The square root forces this
single definition into ℝ; everything else in the file stays in ℚ. -/
noncomputable def hatchLineLength (l : HatchLine) : ℝ :=
  Real.sqrt (((l.endp.1 - l.start.1 : ℚ) : ℝ) ^ 2 +
    ((l.endp.2 - l.start.2 : ℚ) : ℝ) ^ 2)

/-- Embedding of `estimate_build_time` (src/hatching_integration.py lines
345-364).  The hatching data dictionary is modelled as an association list
layer index -> hatch lines.  A line contributes `length / speed` exactly when
its speed is set, nonzero (Python truthiness of `line.speed`) and positive;
otherwise it contributes nothing. -/
noncomputable def estimate_build_time
    (hatching_data : List (ℤ × List HatchLine)) : ℝ :=
  hatching_data.foldl (fun total entry =>
    entry.2.foldl (fun t line =>
      match line.speed with
      | none => t
      | some s =>
        if s = 0 then t
        else if 0 < s then t + hatchLineLength line / (s : ℝ)
        else t) total) 0

/-- Whether a hatch line's speed is set and positive: exactly the lines that
C8 says contribute to the estimated build time. -/
def speedPos (l : HatchLine) : Bool :=
  match l.speed with
  | some s => decide (0 < s)
  | none => false

/-- The time contribution of a single contributing line. -/
noncomputable def lineTime (l : HatchLine) : ℝ :=
  hatchLineLength l / ((l.speed.getD 0 : ℚ) : ℝ)

theorem estimate_layer_foldl (lines : List HatchLine) (t : ℝ) :
    lines.foldl (fun t line =>
      match line.speed with
      | none => t
      | some s =>
        if s = 0 then t
        else if 0 < s then t + hatchLineLength line / (s : ℝ)
        else t) t
    = t + ((lines.filter speedPos).map lineTime).sum := by
  induction lines generalizing t with
  | nil => simp
  | cons l ls ih =>
    simp only [List.foldl_cons]
    cases hs : l.speed with
    | none =>
      rw [ih]
      simp [List.filter_cons, speedPos, hs]
    | some s =>
      dsimp only
      by_cases h0 : s = 0
      · rw [if_pos h0]
        rw [ih]
        simp [List.filter_cons, speedPos, hs, h0]
      · rw [if_neg h0]
        by_cases hpos : 0 < s
        · rw [if_pos hpos]
          rw [ih]
          have hfil : speedPos l = true := by simp [speedPos, hs, hpos]
          simp only [List.filter_cons, hfil, if_pos, List.map_cons, List.sum_cons]
          have : lineTime l = hatchLineLength l / (s : ℝ) := by
            unfold lineTime
            rw [hs]
            rfl
          rw [this]
          ring
        · rw [if_neg hpos]
          rw [ih]
          have hfil : speedPos l = false := by simp [speedPos, hs, hpos]
          simp [List.filter_cons, hfil]

/-- C8: the estimated build time equals the sum of length/speed over exactly
those hatch lines (across all layers) whose speed is set and positive; a line
with unset, zero or negative speed contributes nothing, and no division by a
nonpositive speed is ever performed. -/
theorem estimate_build_time_spec (hatching_data : List (ℤ × List HatchLine)) :
    estimate_build_time hatching_data =
      (((hatching_data.flatMap Prod.snd).filter speedPos).map lineTime).sum := by
  suffices h : ∀ (t : ℝ), hatching_data.foldl (fun total entry =>
      entry.2.foldl (fun t line =>
        match line.speed with
        | none => t
        | some s =>
          if s = 0 then t
          else if 0 < s then t + hatchLineLength line / (s : ℝ)
          else t) total) t
      = t + (((hatching_data.flatMap Prod.snd).filter speedPos).map lineTime).sum by
    have := h 0
    unfold estimate_build_time
    rw [this]
    ring
  induction hatching_data with
  | nil => intro t; simp
  | cons entry rest ih =>
    intro t
    simp only [List.foldl_cons]
    rw [estimate_layer_foldl, ih]
    simp only [List.flatMap_cons, List.filter_append, List.map_append,
      List.sum_append]
    ring

/-- An abstract shapely polygon: only its area is relevant to the claims. -/
structure SPolygon where
  area : ℚ
deriving DecidableEq, Repr

/-- The geometry type of a shapely buffer result: a single Polygon, a
MultiPolygon with its component polygons, or some other geometry type. -/
inductive ShapelyGeomType where
  | polygonT : SPolygon → ShapelyGeomType
  | multiPolygonT : List SPolygon → ShapelyGeomType
  | otherT : ShapelyGeomType
deriving DecidableEq, Repr

/-- A shapely geometry as observed by `offset_polygon`: its geometry type
and its `is_empty` / `is_valid` flags. -/
structure ShapelyGeom where
  gtype : ShapelyGeomType
  is_empty : Bool
  is_valid : Bool
deriving DecidableEq, Repr

/-- Python's `max(geoms, key=lambda p: p.area)`: the first polygon of
maximal area; `max` on an empty sequence raises (modelled as none, which the
source's `except` turns into a None return). -/
def maxByArea (ps : List SPolygon) : Option SPolygon :=
  match ps with
  | [] => none
  | p :: rest =>
    some (rest.foldl (fun best q => if q.area > best.area then q else best) p)

/-- Embedding of `offset_polygon` (src/hatching/utils.py lines 151-182).
The shapely `polygon.buffer(-offset, join_style='mitre', mitre_limit=2.0)`
call is an oracle parameter `buffer` (none models a raised exception, which
the source catches and turns into None).  The post-processing is the code
under verification: an empty or invalid buffer result gives None; a
MultiPolygon collapses to its largest-area component; any geometry type
other than Polygon gives None. -/
def offset_polygon {P : Type} (buffer : P → ℚ → Option ShapelyGeom)
    (polygon : P) (offset : ℚ) : Option SPolygon :=
  match buffer polygon (-offset) with
  | none => none
  | some g =>
    if g.is_empty || !g.is_valid then none
    else
      match g.gtype with
      | ShapelyGeomType.polygonT p => some p
      | ShapelyGeomType.multiPolygonT ps =>
        match maxByArea ps with
        | none => none
        | some p => some p
      | ShapelyGeomType.otherT => none

theorem maxByArea_is_max (p : SPolygon) (rest : List SPolygon) :
    ∀ m, maxByArea (p :: rest) = some m →
      m ∈ p :: rest ∧ ∀ q ∈ p :: rest, q.area ≤ m.area := by
  suffices h : ∀ (start : SPolygon) (l : List SPolygon),
      (l.foldl (fun best q => if q.area > best.area then q else best) start
        ∈ start :: l) ∧
      start.area ≤ (l.foldl (fun best q => if q.area > best.area then q else best) start).area ∧
      ∀ q ∈ l, q.area ≤ (l.foldl (fun best q => if q.area > best.area then q else best) start).area by
    intro m hm
    simp only [maxByArea, Option.some.injEq] at hm
    obtain ⟨hmem, hstart, hall⟩ := h p rest
    subst hm
    refine ⟨hmem, ?_⟩
    intro q hq
    rcases List.mem_cons.mp hq with hq | hq
    · subst hq; exact hstart
    · exact hall q hq
  intro start l
  induction l generalizing start with
  | nil => simp
  | cons q qs ih =>
    simp only [List.foldl_cons]
    set start2 := if q.area > start.area then q else start with hs2
    have hle1 : start.area ≤ start2.area := by
      by_cases hc : q.area > start.area <;> simp [hs2, hc]
      linarith
    have hle2 : q.area ≤ start2.area := by
      by_cases hc : q.area > start.area <;> simp [hs2, hc]
      linarith
    obtain ⟨imem, istart, iall⟩ := ih start2
    refine ⟨?_, le_trans hle1 istart, ?_⟩
    · rcases List.mem_cons.mp imem with hm | hm
      · rw [hm]
        by_cases hc : q.area > start.area
        · rw [hs2, if_pos hc]
          exact List.mem_cons_of_mem start (List.mem_cons_self q qs)
        · rw [hs2, if_neg hc]
          exact List.mem_cons_self start (q :: qs)
      · exact List.mem_cons_of_mem start (List.mem_cons_of_mem q hm)
    · intro x hx
      rcases List.mem_cons.mp hx with hx | hx
      · subst hx; exact le_trans hle2 istart
      · exact iall x hx

/-- C9: when the (oracle) buffer call succeeds with a valid, non-empty
MultiPolygon, `offset_polygon` returns exactly one component, a piece of
the MultiPolygon whose area is maximal (every other piece is discarded);
when the buffer result is empty or invalid, or the buffer call raises, it
returns None. -/
theorem offset_polygon_spec :
    (∀ (P : Type) (buffer : P → ℚ → Option ShapelyGeom) (poly : P) (offset : ℚ)
       (g : ShapelyGeom) (ps : List SPolygon),
      buffer poly (-offset) = some g → g.is_empty = false → g.is_valid = true →
      g.gtype = ShapelyGeomType.multiPolygonT ps → ps ≠ [] →
      ∃ m, offset_polygon buffer poly offset = some m ∧ m ∈ ps ∧
        ∀ q ∈ ps, q.area ≤ m.area) ∧
    (∀ (P : Type) (buffer : P → ℚ → Option ShapelyGeom) (poly : P) (offset : ℚ)
       (g : ShapelyGeom),
      buffer poly (-offset) = some g →
      (g.is_empty = true ∨ g.is_valid = false) →
      offset_polygon buffer poly offset = none) ∧
    (∀ (P : Type) (buffer : P → ℚ → Option ShapelyGeom) (poly : P) (offset : ℚ),
      buffer poly (-offset) = none →
      offset_polygon buffer poly offset = none) := by
  refine ⟨?_, ?_, ?_⟩
  · intro P buffer poly offset g ps hbuf hemp hval hty hne
    unfold offset_polygon
    rw [hbuf]
    simp only [hemp, hval]
    rw [hty]
    cases ps with
    | nil => exact absurd rfl hne
    | cons p rest =>
      obtain ⟨m, hm⟩ : ∃ m, maxByArea (p :: rest) = some m := ⟨_, rfl⟩
      obtain ⟨hmem, hmax⟩ := maxByArea_is_max p rest m hm
      refine ⟨m, ?_, hmem, hmax⟩
      simp [hm]
  · intro P buffer poly offset g hbuf hbad
    unfold offset_polygon
    rw [hbuf]
    rcases hbad with h | h <;> simp [h]
  · intro P buffer poly offset hbuf
    unfold offset_polygon
    rw [hbuf]

/-- C9 witness: a buffer oracle returning a valid non-empty MultiPolygon of
areas 1, 5 and 3 makes `offset_polygon` return the area-5 piece. -/
theorem offset_polygon_spec_witness :
    ∃ m, offset_polygon
        (fun (_ : Unit) (_ : ℚ) =>
          some ⟨ShapelyGeomType.multiPolygonT [⟨1⟩, ⟨5⟩, ⟨3⟩], false, true⟩)
        () 1 = some m ∧
      m ∈ ([⟨1⟩, ⟨5⟩, ⟨3⟩] : List SPolygon) ∧
      ∀ q ∈ ([⟨1⟩, ⟨5⟩, ⟨3⟩] : List SPolygon), q.area ≤ m.area :=
  offset_polygon_spec.1 Unit _ () 1 _ [⟨1⟩, ⟨5⟩, ⟨3⟩] rfl rfl rfl rfl
    (by simp)

/-- The rotation block shared by both transform pipelines: rotate about the
origin by `rotation = (rx, ry, rz)` in X, then Y, then Z order, each axis
skipped when its angle is zero, exactly as in
`SlicingWorker._transform_vertex`.  `cosd`/`sind` stand for the source's
`math.cos(math.radians(angle))` and `math.sin(math.radians(angle))`. -/
def rotXYZ (cosd sind : ℚ → ℚ) (rotation : Vec3) (v : Vec3) : Vec3 :=
  let v :=
    if rotation.1 ≠ 0 then
      (v.1, v.2.1 * cosd rotation.1 - v.2.2 * sind rotation.1,
       v.2.1 * sind rotation.1 + v.2.2 * cosd rotation.1)
    else v
  let v :=
    if rotation.2.1 ≠ 0 then
      (v.1 * cosd rotation.2.1 + v.2.2 * sind rotation.2.1, v.2.1,
       -(v.1) * sind rotation.2.1 + v.2.2 * cosd rotation.2.1)
    else v
  let v :=
    if rotation.2.2 ≠ 0 then
      (v.1 * cosd rotation.2.2 - v.2.1 * sind rotation.2.2,
       v.1 * sind rotation.2.2 + v.2.1 * cosd rotation.2.2, v.2.2)
    else v
  v

/-- Embedding of `SlicingWorker._transform_vertex` (src/workers.py lines
287-332): scale about the origin, rotate about the origin in X, Y, Z order,
then translate by position.  No centering translation of any kind is
performed. -/
def transform_vertex (cosd sind : ℚ → ℚ)
    (vertex position rotation scale : Vec3) : Vec3 :=
  let v := (vertex.1 * scale.1, vertex.2.1 * scale.2.1, vertex.2.2 * scale.2.2)
  let v := rotXYZ cosd sind rotation v
  (v.1 + position.1, v.2.1 + position.2.1, v.2.2 + position.2.2)

/-- The transform pipeline stated by the specification (section 4.1) and by
claim C1, which is also what the renderer-side
`OpenGLWidget.transform_vertex` implements: first translate the model so it
is centered at the origin in the two ground-plane axes with its minimum
resting on the build surface (height `surfaceY`), then scale about the
geometric center, then rotate about the geometric center in a fixed axis
order (the same X, Y, Z order the worker uses), then translate by
`Transform.position`.  `bounds` is (min_x, min_y, min_z, max_x, max_y,
max_z). -/
def spec_transform_vertex (cosd sind : ℚ → ℚ) (surfaceY : ℚ)
    (bounds : ℚ × ℚ × ℚ × ℚ × ℚ × ℚ)
    (vertex position rotation scale : Vec3) : Vec3 :=
  let min_x := bounds.1
  let min_y := bounds.2.1
  let min_z := bounds.2.2.1
  let max_x := bounds.2.2.2.1
  let max_y := bounds.2.2.2.2.1
  let max_z := bounds.2.2.2.2.2
  let cx := (min_x + max_x) / 2
  let cz := (min_z + max_z) / 2
  let v := (vertex.1 - cx, vertex.2.1 - min_y + surfaceY, vertex.2.2 - cz)
  let gc : Vec3 := (0, surfaceY + (max_y - min_y) / 2, 0)
  let v := (gc.1 + (v.1 - gc.1) * scale.1, gc.2.1 + (v.2.1 - gc.2.1) * scale.2.1,
            gc.2.2 + (v.2.2 - gc.2.2) * scale.2.2)
  let w := rotXYZ cosd sind rotation (v.1 - gc.1, v.2.1 - gc.2.1, v.2.2 - gc.2.2)
  let v := (w.1 + gc.1, w.2.1 + gc.2.1, w.2.2 + gc.2.2)
  (v.1 + position.1, v.2.1 + position.2.1, v.2.2 + position.2.2)

/-- C1: the slicing worker's vertex pipeline is NOT the sequence the claim
describes.  `SlicingWorker._transform_vertex` never performs the centering
translation, so already at unit scale, zero rotation and zero position it
disagrees with the specified pipeline whenever the model's bounding-box
center is off the origin: for the vertex (1,1,1) of a model with bounds
[0,2]^3 the worker returns x = 1 while the specified pipeline returns x = 0,
for every trigonometric oracle and every build-surface height.  (The worker
even contradicts its own docstring, which says it mirrors
`OpenGLWidget.slice_model`, whose `transform_vertex` performs the centering
steps.) -/
theorem transform_vertex_diverges_from_spec :
    ∀ (cosd sind : ℚ → ℚ) (surfaceY : ℚ),
      (transform_vertex cosd sind (1, 1, 1) (0, 0, 0) (0, 0, 0) (1, 1, 1)).1
        = 1 ∧
      (spec_transform_vertex cosd sind surfaceY (0, 0, 0, 2, 2, 2)
        (1, 1, 1) (0, 0, 0) (0, 0, 0) (1, 1, 1)).1 = 0 := by
  intro cosd sind surfaceY
  constructor
  · simp only [transform_vertex, rotXYZ]
    norm_num
  · simp only [spec_transform_vertex, rotXYZ]
    norm_num

/-- Quantization tolerance used by `segments_to_contours`
(src/hatching_integration.py line 34): 1e-6. -/
def ptTolerance : ℚ := 1/1000000

/-- Python's built-in `round` (banker's rounding, half to even) on an exact
rational. -/
def pyround (q : ℚ) : ℤ :=
  let f := ⌊q⌋
  let r := q - f
  if r < 1/2 then f
  else if r > 1/2 then f + 1
  else if f % 2 = 0 then f else f + 1

/-- The `point_key` quantization of `segments_to_contours`:
`(round(x / tolerance) * tolerance, round(z / tolerance) * tolerance)`. -/
def point_key (x z : ℚ) : Point2 :=
  ((pyround (x / ptTolerance) : ℚ) * ptTolerance,
   (pyround (z / ptTolerance) : ℚ) * ptTolerance)

/-- The adjacency map `defaultdict(list)` of `segments_to_contours`, keyed
by quantized points, with Python's dict insertion order made explicit as an
association list. -/
abbrev Graph := List (Point2 × List Point2)

/-- `graph[p].append(q)` on a `defaultdict(list)`: append to the existing
entry, or create a new entry at the end of the key order. -/
def gAppend : Graph → Point2 → Point2 → Graph
  | [], p, q => [(p, [q])]
  | (k, vs) :: rest, p, q =>
    if k = p then (k, vs ++ [q]) :: rest
    else (k, vs) :: gAppend rest p q

/-- Lookup of `graph[current]` during the walk (the graph is not mutated in
that phase, so every key looked up exists; absent keys read as []). -/
def gNeighbors : Graph → Point2 → List Point2
  | [], _ => []
  | (k, vs) :: rest, p => if k = p then vs else gNeighbors rest p

/-- Lexicographic order on quantized points, as Python compares the (x, z)
tuples when forming `(min(p, q), max(p, q))`. -/
def pointLe (a b : Point2) : Bool :=
  if a.1 < b.1 then true
  else if a.1 = b.1 then decide (a.2 ≤ b.2)
  else false

/-- The canonical edge key `(min(p, q), max(p, q))` used for the visited-edge
sets of `segments_to_contours`. -/
def edgeKey (a b : Point2) : Point2 × Point2 :=
  if pointLe a b then (a, b) else (b, a)

/-- Graph construction of `segments_to_contours`: for each segment
(x1, z1, x2, z2), append each quantized endpoint to the other's adjacency
list and record the edge. -/
def buildGraph (segments : List Seg4) : Graph × List (Point2 × Point2) :=
  segments.foldl (fun acc seg =>
    let p1 := point_key seg.1 seg.2.1
    let p2 := point_key seg.2.2.1 seg.2.2.2
    (gAppend (gAppend acc.1 p1 p2) p2 p1, acc.2 ++ [(p1, p2)])) ([], [])

/-- The `for neighbor in graph[current]` scan inside `find_loop`: the first
neighbor whose edge key is not in the local visited set, together with that
edge key. -/
def findNextNeighbor (current : Point2)
    (visited_local : List (Point2 × Point2)) :
    List Point2 → Option (Point2 × (Point2 × Point2))
  | [] => none
  | n :: rest =>
    if edgeKey current n ∈ visited_local then
      findNextNeighbor current visited_local rest
    else some (n, edgeKey current n)

/-- The `while True` walk of `find_loop` (src/hatching_integration.py lines
57-88), returning the loop (when the walk returns to its start) or none
(when the edges are exhausted or the source's own safety guard
`len(loop) > len(edges)` fires), together with the updated global
visited-edge set.  Every iteration that does not return grows the loop by
one point, and the safety guard returns as soon as the loop exceeds
`edgeCount` points, so the fuel `edgeCount + 2` used below is never
exhausted and the embedding agrees with the source's unbounded loop. -/
def findLoopGo (graph : Graph) (edgeCount : Nat) (start : Point2) :
    Nat → Point2 → List Point2 → List (Point2 × Point2) →
    List (Point2 × Point2) →
    Option (List Point2) × List (Point2 × Point2)
  | 0, _, _, _, visited_edges => (none, visited_edges)
  | fuel + 1, current, loop, visited_local, visited_edges =>
    match findNextNeighbor current visited_local (gNeighbors graph current) with
    | none => (none, visited_edges)
    | some (next_point, e) =>
      if next_point = start then (some loop, e :: visited_edges)
      else if (loop ++ [next_point]).length > edgeCount then
        (none, e :: visited_edges)
      else
        findLoopGo graph edgeCount start fuel next_point (loop ++ [next_point])
          (e :: visited_local) (e :: visited_edges)

/-- `find_loop(start)` of `segments_to_contours`: the walk starts at `start`
with `loop = [start]` and an empty local visited set. -/
def find_loop (graph : Graph) (edgeCount : Nat) (start : Point2)
    (visited_edges : List (Point2 × Point2)) :
    Option (List Point2) × List (Point2 × Point2) :=
  findLoopGo graph edgeCount start (edgeCount + 2) start [start] [] visited_edges

/-- One iteration of the extraction loop `for point in list(graph.keys())` of
`segments_to_contours`: when the point still has an incident edge missing
from the global visited set, run `find_loop` from it and keep the returned
loop exactly when it has at least 3 points; a walk that returns none (an
open, non-closing chain) adds nothing to the contour list and raises no
error. -/
def extractStep (graph : Graph) (edgeCount : Nat)
    (acc : List (List Point2) × List (Point2 × Point2))
    (entry : Point2 × List Point2) :
    List (List Point2) × List (Point2 × Point2) :=
  if entry.2.any (fun neighbor =>
      decide (edgeKey entry.1 neighbor ∉ acc.2)) then
    match find_loop graph edgeCount entry.1 acc.2 with
    | (some loop, visited2) =>
      if 3 ≤ loop.length then (acc.1 ++ [loop], visited2)
      else (acc.1, visited2)
    | (none, visited2) => (acc.1, visited2)
  else acc

/-- Embedding of `segments_to_contours` (src/hatching_integration.py lines
13-98): build the quantized adjacency graph, then walk loops from each key
in insertion order.  The return value is a plain contour list: the function
has no error output of any kind. -/
def segments_to_contours (segments : List Seg4) : List (List Point2) :=
  match segments with
  | [] => []
  | _ :: _ =>
    let gb := buildGraph segments
    (gb.1.foldl (extractStep gb.1 gb.2.length) ([], [])).1

theorem extractStep_min_length (graph : Graph) (edgeCount : Nat)
    (acc : List (List Point2) × List (Point2 × Point2))
    (entry : Point2 × List Point2)
    (hacc : ∀ c ∈ acc.1, 3 ≤ c.length) :
    ∀ c ∈ (extractStep graph edgeCount acc entry).1, 3 ≤ c.length := by
  intro c hc
  unfold extractStep at hc
  by_cases hif : entry.2.any (fun neighbor =>
      decide (edgeKey entry.1 neighbor ∉ acc.2)) = true
  · rw [if_pos hif] at hc
    rcases hfl : find_loop graph edgeCount entry.1 acc.2 with ⟨loopOpt, visited2⟩
    rw [hfl] at hc
    cases loopOpt with
    | none => exact hacc c hc
    | some loop =>
      dsimp only at hc
      by_cases hlen : 3 ≤ loop.length
      · rw [if_pos hlen] at hc
        rcases List.mem_append.mp hc with h | h
        · exact hacc c h
        · rw [List.mem_singleton.mp h]
          exact hlen
      · rw [if_neg hlen] at hc
        exact hacc c hc
  · rw [if_neg hif] at hc
    exact hacc c hc

theorem foldl_extractStep_min_length (graph : Graph) (edgeCount : Nat) :
    ∀ (entries : List (Point2 × List Point2))
      (acc : List (List Point2) × List (Point2 × Point2)),
      (∀ c ∈ acc.1, 3 ≤ c.length) →
      ∀ c ∈ (entries.foldl (extractStep graph edgeCount) acc).1, 3 ≤ c.length := by
  intro entries
  induction entries with
  | nil => intro acc hacc; exact hacc
  | cons e rest ih =>
    intro acc hacc
    simp only [List.foldl_cons]
    exact ih _ (extractStep_min_length graph edgeCount acc e hacc)

theorem segments_to_contours_open_chain_eval :
    segments_to_contours [(0, 0, 1, 0), (1, 0, 2, 0)] = [] := by
  norm_num [segments_to_contours, buildGraph, point_key, pyround, ptTolerance,
    gAppend, extractStep, find_loop, findLoopGo, findNextNeighbor, gNeighbors,
    edgeKey, pointLe, Prod.ext_iff, Prod.fst_zero, Prod.snd_zero]

/-- C4 counterexample: the two collinear segments (0,0)-(1,0) and
(1,0)-(2,0) form a single open chain; the walk exhausts its edges without
returning to the start, yet `segments_to_contours` returns the plain empty
contour list: the same value it returns for no geometry at all.  Nothing is
surfaced to the caller; the open chain is silently dropped, contradicting
the claim that such inputs are classified as a geometry-integrity error. -/
theorem segments_to_contours_open_chain_counterexample :
    segments_to_contours [(0, 0, 1, 0), (1, 0, 2, 0)] =
      segments_to_contours [] := by
  rw [segments_to_contours_open_chain_eval]
  rfl

/-- C4 (amended): when the adjacency-graph walk exhausts its edges without
returning to the start, the open chain is silently dropped: the result type
carries no error indication, every contour the function does return is a
closed loop of at least 3 points, and a pure open-chain input yields the
empty contour list. -/
theorem segments_to_contours_amended :
    (∀ (segments : List Seg4) (c : List Point2),
      c ∈ segments_to_contours segments → 3 ≤ c.length) ∧
    segments_to_contours [(0, 0, 1, 0), (1, 0, 2, 0)] = [] := by
  constructor
  · intro segments c hc
    cases segments with
    | nil => simp [segments_to_contours] at hc
    | cons s rest =>
      unfold segments_to_contours at hc
      exact foldl_extractStep_min_length _ _ _ _ (by simp) c hc
  · exact segments_to_contours_open_chain_eval

theorem segments_to_contours_triangle_eval :
    segments_to_contours [(0, 0, 1, 0), (1, 0, 0, 1), (0, 1, 0, 0)] =
      [[(0, 0), (1, 0), (0, 1)]] := by
  norm_num [segments_to_contours, buildGraph, point_key, pyround, ptTolerance,
    gAppend, extractStep, find_loop, findLoopGo, findNextNeighbor, gNeighbors,
    edgeKey, pointLe, Prod.ext_iff, Prod.fst_zero, Prod.snd_zero]

/-- C4 witness: the amended theorem applied to the one contour reconstructed
from a concrete closed triangle. -/
theorem segments_to_contours_amended_witness :
    3 ≤ ([(0, 0), (1, 0), (0, 1)] : List Point2).length :=
  segments_to_contours_amended.1 [(0, 0, 1, 0), (1, 0, 0, 1), (0, 1, 0, 0)]
    [(0, 0), (1, 0), (0, 1)]
    (by rw [segments_to_contours_triangle_eval]; simp)

end Obpcut
